import Mathlib

/-!
Verification development for the document-analysis engine of the phrm-diag
repository (src/document_processing).  The Python sources are shallowly
embedded: pure functions become Lean functions over `String` and exact
rational numbers, regular-expression scanning is modelled by specialised
backtracking parsers that enumerate parses in the preference order of the
Python `re` engine, and the stateful similarity index becomes explicit state
passing.  Python floats are modelled as exact rationals; to keep every
definition kernel-computable they are represented by the unreduced fraction
type `F` below (ordinary rational arithmetic does not reduce inside the
kernel because of `Nat.gcd` normalisation), with `F.toRat` giving the
rational value.  `ℝ` appears only where a library computes logarithms or
square roots.  External collaborators (the spaCy sentence segmenter, the
networkx ranking, the sklearn vectorizer internals) are modelled from their
documented behaviour where the claims need them.
-/

namespace Phrm

/-! ## Exact fraction arithmetic (model of Python float arithmetic) -/

/-- An unreduced fraction `num / den`.  Every fraction built by the model has
a positive denominator except for the result of a division by zero, where
the Python code would raise `ZeroDivisionError`. -/
structure F where
  num : Int
  den : Nat
deriving DecidableEq

def F.ofNat (n : Nat) : F := ⟨n, 1⟩

def F.toRat (a : F) : ℚ := (a.num : ℚ) / (a.den : ℚ)

def F.add (a b : F) : F := ⟨a.num * b.den + b.num * a.den, a.den * b.den⟩

def F.sub (a b : F) : F := ⟨a.num * b.den - b.num * a.den, a.den * b.den⟩

def F.mul (a b : F) : F := ⟨a.num * b.num, a.den * b.den⟩

/-- Division; the sign is moved into the numerator so that denominators stay
nonnegative. -/
def F.div (a b : F) : F :=
  if b.num < 0 then ⟨-(a.num * b.den), a.den * b.num.natAbs⟩
  else ⟨a.num * b.den, a.den * b.num.natAbs⟩

/-- Absolute value, modelling the Python `abs` builtin. -/
def F.fabs (a : F) : F := ⟨a.num.natAbs, a.den⟩

/-- Comparison by cross multiplication (valid for positive denominators,
which the model maintains). -/
def F.le (a b : F) : Bool := a.num * b.den ≤ b.num * a.den

def F.lt (a b : F) : Bool := a.num * b.den < b.num * a.den

/-- Value equality of fractions, by cross multiplication. -/
def F.beqv (a b : F) : Bool := a.num * b.den == b.num * a.den

/-- Truncation toward zero, modelling the Python `int()` conversion of a
float. -/
def F.truncInt (a : F) : Int :=
  if a.num < 0 then -(a.num.natAbs / a.den : Nat) else (a.num.natAbs / a.den : Nat)

/-! ## Basic string and character helpers -/

/-- Word characters as matched by the regex class `\w` (ASCII fragment:
letters, digits and the underscore; all inputs in this development are
ASCII). -/
def isWordChar (c : Char) : Bool := c.isAlphanum || c == '_'

/-- Lower-casing of a string, modelling the Python `str.lower` on ASCII
input. -/
def lowerStr (s : String) : String := String.mk (s.data.map Char.toLower)

/-- Boolean prefix test on lists. -/
def listIsPre [BEq α] : List α → List α → Bool
  | [], _ => true
  | _ :: _, [] => false
  | a :: as, b :: bs => a == b && listIsPre as bs

/-- Boolean infix test on lists. -/
def listIsInfix [BEq α] (needle : List α) : List α → Bool
  | [] => needle.isEmpty
  | b :: bs => listIsPre needle (b :: bs) || listIsInfix needle bs

/-- Substring containment, modelling the Python expression
`needle in hay`. -/
def strContains (hay needle : String) : Bool := listIsInfix needle.data hay.data

/-- Character slice `text[a:b]` of Python. -/
def sliceStr (s : String) (a b : Nat) : String :=
  String.mk ((s.data.drop a).take (b - a))

/-- Whitespace stripping from both ends, modelling the Python `str.strip`
(kept at the character-list level so that it reduces inside the kernel). -/
def pyStrip (s : String) : String :=
  String.mk (((s.data.dropWhile Char.isWhitespace).reverse.dropWhile
    Char.isWhitespace).reverse)

def digitVal (c : Char) : Nat := c.toNat - 48

def natOfDigits (cs : List Char) : Nat :=
  cs.foldl (fun a c => 10 * a + digitVal c) 0

/-- Value of an integer digit string together with a (possibly empty)
fractional digit string, modelling the Python `float` conversion of strings
such as `"123"`, `"123.45"` and `"140."`. -/
def ratOfDigits (ip fp : List Char) : F :=
  ⟨(natOfDigits ip * 10 ^ fp.length + natOfDigits fp : Nat), 10 ^ fp.length⟩

/-! ## A stable sort modelling the Python `sorted`

The Python `sorted` builtin is a stable sort; we model it by a structural
stable insertion sort so that it evaluates inside the kernel. -/

/-- Insert `x` after every element `y` of `l` with `le y x`; used by
`stableSort`. -/
def sInsert (le : α → α → Bool) (x : α) : List α → List α
  | [] => [x]
  | y :: ys => if le y x then y :: sInsert le x ys else x :: y :: ys

/-- Stable sort with respect to the boolean comparison `le`; elements that
compare equal keep their original relative order, as with the Python
`sorted`. -/
def stableSort (le : α → α → Bool) (l : List α) : List α :=
  l.foldl (fun acc y => sInsert le y acc) []

/-! ## Calendar dates -/

/-- A calendar date as produced by `datetime.date` (the model only ever
builds dates with `year ≥ 1`, mirroring `datetime.MINYEAR`). -/
structure PDate where
  year : Nat
  month : Nat
  day : Nat
deriving DecidableEq

def isLeapYear (y : Nat) : Bool :=
  y % 4 == 0 && (y % 100 != 0 || y % 400 == 0)

def daysInMonth (y m : Nat) : Nat :=
  if m == 2 then (if isLeapYear y then 29 else 28)
  else if m == 4 || m == 6 || m == 9 || m == 11 then 30
  else 31

/-- Validity of a `year, month, day` triple, as checked by the Python
`datetime.date` constructor inside `strptime`. -/
def isValidDate (y m d : Nat) : Bool :=
  1 ≤ y && 1 ≤ m && m ≤ 12 && 1 ≤ d && d ≤ daysInMonth y m

def natDigitsStr (n : Nat) : String := toString n

def zeroPad (w : Nat) (s : String) : String :=
  if s.length < w then String.mk (List.replicate (w - s.length) '0') ++ s else s

/-- ISO formatting of a date, modelling `date.strftime("%Y-%m-%d")`.  For
years below 1000 the C library behind `strftime` does not zero-pad `%Y` on
common platforms; the model pads to four digits.  Every claim settled below
only needs that such dates differ from the expected four-digit year form,
which holds either way. -/
def formatISO (d : PDate) : String :=
  zeroPad 4 (natDigitsStr d.year) ++ "-" ++ zeroPad 2 (natDigitsStr d.month) ++ "-" ++
    zeroPad 2 (natDigitsStr d.day)

/-- Lexicographic comparison of dates, as given by `datetime` ordering. -/
def dateLe (a b : PDate) : Bool :=
  if a.year != b.year then a.year < b.year
  else if a.month != b.month then a.month < b.month
  else a.day ≤ b.day

/-- Parsing of an ISO `YYYY-MM-DD` string.  Modelled from the behaviour of
the `dateparser.parse` library call on the ISO-formatted date strings used by
this code base; other input shapes the library accepts are not exercised by
any settled claim and parse to `none` here. -/
def parseISODate (s : String) : Option PDate :=
  match s.data with
  | [y1, y2, y3, y4, '-', m1, m2, '-', d1, d2] =>
    if (y1.isDigit && y2.isDigit && y3.isDigit && y4.isDigit &&
        m1.isDigit && m2.isDigit && d1.isDigit && d2.isDigit) then
      let y := natOfDigits [y1, y2, y3, y4]
      let m := natOfDigits [m1, m2]
      let d := natOfDigits [d1, d2]
      if isValidDate y m d then some ⟨y, m, d⟩ else none
    else none
  | _ => none

/-- Day number of a date (days-from-civil algorithm, valid for `year ≥ 1`);
differences of day numbers model `(datetime2 - datetime1).days` for the
midnight datetimes produced by date parsing. -/
def rataDie (dt : PDate) : Int :=
  let yy : Nat := if dt.month ≤ 2 then dt.year - 1 else dt.year
  let era : Nat := yy / 400
  let yoe : Nat := yy % 400
  let mp : Nat := (dt.month + 9) % 12
  let doy : Nat := (153 * mp + 2) / 5 + dt.day - 1
  let doe : Nat := yoe * 365 + yoe / 4 - yoe / 100 + doy
  (era * 146097 + doe : Nat)

/-! ## Association-list helpers for Python dictionaries

Python dictionaries preserve insertion order; they are modelled as
association lists, with `pushA` modelling the idiom
`if k not in d: d[k] = []` followed by `d[k].append(v)`. -/

def lookupA (l : List (String × β)) (k : String) : Option β :=
  (l.find? (fun p => p.1 == k)).map (·.2)

def pushA (l : List (String × List β)) (k : String) (v : β) :
    List (String × List β) :=
  if (l.find? (fun p => p.1 == k)).isSome then
    l.map (fun p => if p.1 == k then (p.1, p.2 ++ [v]) else p)
  else l ++ [(k, [v])]

/-! ## Trend analysis (`enhancement.identify_trends`) -/

/-- A recorded measurement value inside a findings record: either a bare
string or a dictionary carrying a `value` entry (`value_item` in the
source; a dictionary without a `value` key yields the empty string via
`value_item.get("value", "")`). -/
inductive VItem where
  | vstr (s : String)
  | vdict (value : Option String)
deriving DecidableEq

def VItem.valueStr : VItem → String
  | .vstr s => s
  | .vdict v => v.getD ""

/-- The findings record consumed by `identify_trends` (the fields read from
the dictionary produced by `extract_key_findings`). -/
structure Findings where
  measurements : List (String × List VItem)
  conditions : List String
  medications : List String
deriving DecidableEq

/-- One input document of `identify_trends`: optional `date` and `findings`
keys, read with `doc.get`. -/
structure TrendDoc where
  date : Option String
  findings : Option Findings
deriving DecidableEq

/-- First numeric token of a string, modelling
`re.findall(r"(\d+\.?\d*)", value)` followed by taking the first match and
converting with `float`. -/
def firstNumeric (s : String) : Option F :=
  let cs := s.data.dropWhile (fun c => !c.isDigit)
  match cs with
  | [] => none
  | _ =>
    let ip := cs.takeWhile Char.isDigit
    let rest := cs.dropWhile Char.isDigit
    match rest with
    | '.' :: rest2 => some (ratOfDigits ip (rest2.takeWhile Char.isDigit))
    | _ => some (ratOfDigits ip [])

structure SeriesPoint where
  date : String
  value : F
  original : String
deriving DecidableEq

/-- The per-category statistics block stored under the `m_type + "_stats"`
key (field names follow the dictionary keys; `min`/`max` are prefixed to
avoid clashing with the Lean builtins). -/
structure MeasStats where
  statMin : F
  statMax : F
  mean : F
  median : F
  std_dev : ℝ
  trend_direction : String
  data_points : Nat

/-- A value of the heterogeneous `trends["measurements"]` dictionary: either
a time series or a statistics block. -/
inductive MeasEntry where
  | series (points : List SeriesPoint)
  | stats (s : MeasStats)

/-- A change event emitted by the change-detection step (the `type` key is
named `ctype` here). -/
structure ChangeEvent where
  ctype : String
  name : String
  from_date : String
  to_date : String
  from_value : F
  to_value : F
  change_percent : F
  direction : String
deriving DecidableEq

structure MedPattern where
  medication : String
  average_gap_days : F
  potential_issue : String
deriving DecidableEq

structure TrendReport where
  measurements : List (String × MeasEntry)
  conditions : List (String × List String)
  medications : List (String × List String)
  changes : List ChangeEvent
  medication_patterns : List MedPattern

/-- Result of `identify_trends`: either the insufficiency marker dictionary
`{"error": ...}` or a full trend report. -/
inductive TrendResult where
  | error (message : String)
  | report (r : TrendReport)

def TrendResult.changesOf : TrendResult → List ChangeEvent
  | .error _ => []
  | .report r => r.changes

def TrendResult.isReport : TrendResult → Bool
  | .error _ => false
  | .report _ => true

def TrendResult.errorMsg : TrendResult → Option String
  | .error m => some m
  | .report _ => none

/-- Accumulator state of the main document loop of `identify_trends`:
`meas` is the time-series part of `trends["measurements"]`, `allMeas` is the
`all_measurements` tracking dictionary. -/
structure TrendState where
  meas : List (String × List SeriesPoint)
  conds : List (String × List String)
  meds : List (String × List String)
  changes : List ChangeEvent
  allMeas : List (String × List F)

/-- Body of the per-document iteration of `identify_trends`: record
measurements, conditions and medications of `d`, then (when a previous
document exists) run change detection between the current date and the date
of the immediately preceding document.  Division by zero in the
percent-change formula produces a zero denominator in `F`, where the Python
code would raise `ZeroDivisionError`; no settled claim reaches that case. -/
def processDoc (st0 : TrendState) (pr : Option TrendDoc) (d : TrendDoc) :
    TrendState :=
  let date := d.date.getD "unknown"
  let f := d.findings.getD ⟨[], [], []⟩
  let st1 := f.measurements.foldl (fun st p =>
    p.2.foldl (fun st vi =>
      match firstNumeric vi.valueStr with
      | some q =>
        { st with
          meas := pushA st.meas p.1 ⟨date, q, vi.valueStr⟩,
          allMeas := pushA st.allMeas p.1 q }
      | none => st) st) st0
  let st2 := f.conditions.foldl (fun st c =>
    { st with conds := pushA st.conds c date }) st1
  let st3 := f.medications.foldl (fun st m =>
    { st with meds := pushA st.meds m date }) st2
  match pr with
  | none => st3
  | some prev =>
    let prevDate := prev.date.getD ""
    st3.allMeas.foldl (fun st q =>
      if q.2.length ≥ 2 then
        let pts := (lookupA st3.meas q.1).getD []
        let curr := (pts.filter (fun v => v.date == date)).map (·.value)
        let prevVs := (pts.filter (fun v => v.date == prevDate)).map (·.value)
        match curr.getLast?, prevVs.getLast? with
        | some cv, some pv =>
          let pct := ((cv.sub pv).div pv).mul (F.ofNat 100)
          if (F.ofNat 10).lt pct.fabs then
            { st with changes := st.changes ++
                [⟨"measurement", q.1, prevDate, date, pv, cv, pct,
                  if F.lt ⟨0, 1⟩ pct then "increase" else "decrease"⟩] }
          else st
        | _, _ => st
      else st) st3

/-- The document loop, threading the previous document for change
detection. -/
def runDocs : TrendState → Option TrendDoc → List TrendDoc → TrendState
  | st, _, [] => st
  | st, pr, d :: rest => runDocs (processDoc st pr d) (some d) rest

def fMin : List F → F
  | [] => ⟨0, 1⟩
  | x :: xs => xs.foldl (fun a b => if F.le a b then a else b) x

def fMax : List F → F
  | [] => ⟨0, 1⟩
  | x :: xs => xs.foldl (fun a b => if F.le a b then b else a) x

def fSum (l : List F) : F := l.foldl F.add ⟨0, 1⟩

/-- Trend identification over a series of dated documents
(`enhancement.identify_trends`).  Requires at least two documents, sorts by
parsed date when every date parses (falling back to the original order
otherwise, mirroring the caught sorting exception), accumulates time
series, emits change events for consecutive-document changes above the 10
percent threshold, then appends per-category statistics and
medication-adherence flags. -/
noncomputable def identify_trends (documents : List TrendDoc) : TrendResult :=
  if documents.length < 2 then .error "Insufficient data for trend analysis"
  else
    let key := fun (d : TrendDoc) => parseISODate (d.date.getD "")
    let sorted_docs :=
      if documents.all (fun d => (key d).isSome) then
        stableSort (fun a b => dateLe ((key a).getD ⟨1, 1, 1⟩)
          ((key b).getD ⟨1, 1, 1⟩)) documents
      else documents
    let fin := runDocs ⟨[], [], [], [], []⟩ none sorted_docs
    let statsEntries := fin.allMeas.foldl (fun acc p =>
      if (lookupA fin.meas p.1).isSome && p.2.length > 1 then
        let values := p.2
        let n : ℕ := values.length
        let sortedVals := stableSort F.le values
        let mean := (fSum values).div (F.ofNat n)
        let median :=
          if n % 2 == 1 then (sortedVals.get? (n / 2)).getD ⟨0, 1⟩
          else (((sortedVals.get? (n / 2 - 1)).getD ⟨0, 1⟩).add
                 ((sortedVals.get? (n / 2)).getD ⟨0, 1⟩)).div (F.ofNat 2)
        let variance := (fSum (values.map (fun v => (v.sub mean).mul (v.sub mean)))).div (F.ofNat n)
        let v0 := values.head?.getD ⟨0, 1⟩
        let vl := values.getLast?.getD ⟨0, 1⟩
        let dir := if F.lt v0 vl then "increasing"
                   else if F.lt vl v0 then "decreasing" else "stable"
        acc ++ [(p.1 ++ "_stats",
          MeasEntry.stats ⟨fMin values, fMax values, mean, median,
            Real.sqrt (variance.toRat : ℝ), dir, n⟩)]
      else acc) []
    let medPatterns := fin.meds.foldl (fun acc p =>
      if p.2.length > 1 then
        -- the Python code would raise from `dateparser` result arithmetic on
        -- an unparseable date here; no settled claim reaches that case
        if p.2.all (fun d => (parseISODate d).isSome) then
          let dObjs := p.2.map (fun d => rataDie ((parseISODate d).getD ⟨1, 1, 1⟩))
          let gaps := (dObjs.zip dObjs.tail).map (fun g => (g.2 - g.1 : Int))
          let avg : F := ⟨gaps.foldl (· + ·) 0, gaps.length⟩
          if (F.ofNat 45).lt avg then
            acc ++ [⟨p.1, avg, "Possible non-adherence or intermittent use"⟩]
          else acc
        else acc
      else acc) []
    .report
      ⟨fin.meas.map (fun p => (p.1, MeasEntry.series p.2)) ++ statsEntries,
       fin.conds, fin.meds, fin.changes, medPatterns⟩

/-! ## Document classification (`categorization.DocumentCategorizer`) -/

/-- The document-type enumeration of `categorization.DocumentType`. -/
inductive DocumentType where
  | unknown
  | lab_result
  | prescription
  | medical_report
  | discharge_summary
  | referral
  | imaging_report
  | vaccination_record
  | insurance
  | billing
  | consent_form
deriving DecidableEq

def isWordOpt : Option Char → Bool
  | some c => isWordChar c
  | none => false

/-- A word boundary `\b` between two adjacent characters (`none` at the ends
of the text). -/
def boundaryB (l r : Option Char) : Bool := isWordOpt l != isWordOpt r

/-- Match one alternative of a `\b(?:a|b|...)\b` pattern at the current
position: the alternative must be a prefix of the remaining text with word
boundaries on both sides (`pre` is the character preceding the position). -/
def wordAltHere (pre : Option Char) (rest : List Char) (alt : List Char) : Bool :=
  listIsPre alt rest && boundaryB pre alt.head? &&
    boundaryB alt.getLast? ((rest.drop alt.length).head?)

def searchWordGo (alts : List (List Char)) : Option Char → List Char → Bool
  | pre, rest =>
    alts.any (wordAltHere pre rest) ||
      match rest with
      | [] => false
      | c :: cs => searchWordGo alts (some c) cs

/-- Case-insensitive search for a pattern of the shape `\b(?:a1|...|an)\b`,
modelling the `re.search(rules["required_pattern"], text, re.IGNORECASE)`
calls of `classify_document` (every required pattern in the rule table has
this shape). -/
def searchWordAlt (text : String) (alts : List String) : Bool :=
  searchWordGo (alts.map (fun a => (lowerStr a).data)) none (lowerStr text).data

/-- One classification rule: keyword list, optional required pattern (given
by its alternatives) and score threshold. -/
structure CRule where
  keywords : List String
  required_pattern : Option (List String)
  score_threshold : F
deriving DecidableEq

/-- The classification rule table of `_load_classification_rules`, in the
Python dictionary insertion order. -/
def classification_rules : List (DocumentType × CRule) :=
  [(.lab_result,
    ⟨["laboratory", "lab result", "test result", "panel", "reference range",
      "specimen", "collected", "methodology"],
     some ["normal range", "reference range", "abnormal", "WBC", "RBC", "HGB", "HCT"],
     ⟨6, 10⟩⟩),
   (.prescription,
    ⟨["prescription", "Rx", "refill", "dispense", "pharmacy",
      "sig:", "take", "tablet", "capsule", "daily", "dose", "route"],
     some ["mg", "mL", "mcg", "tablet", "capsule", "take", "daily"],
     ⟨6, 10⟩⟩),
   (.medical_report,
    ⟨["assessment", "plan", "history", "examination", "chief complaint",
      "diagnosis", "treatment", "recommendation", "follow-up"],
     none,
     ⟨55, 100⟩⟩),
   (.discharge_summary,
    ⟨["discharge", "summary", "admission", "hospital", "follow-up",
      "discharged", "hospitalization", "inpatient"],
     some ["discharge", "admitted", "admission date", "discharge date"],
     ⟨7, 10⟩⟩),
   (.referral,
    ⟨["referral", "referred", "consult", "consultation", "specialist",
      "opinion", "second opinion"],
     none,
     ⟨6, 10⟩⟩),
   (.imaging_report,
    ⟨["radiology", "imaging", "x-ray", "MRI", "CT", "ultrasound",
      "scan", "impression", "technique", "contrast"],
     some ["impression", "technique", "findings", "radiologist", "CT", "MRI", "X-ray"],
     ⟨65, 100⟩⟩),
   (.vaccination_record,
    ⟨["vaccine", "vaccination", "immunization", "booster",
      "dose", "administered", "injection site"],
     none,
     ⟨7, 10⟩⟩),
   (.insurance,
    ⟨["insurance", "policy", "coverage", "premium", "deductible",
      "copay", "claim", "benefits", "insured", "group number"],
     none,
     ⟨65, 100⟩⟩),
   (.billing,
    ⟨["bill", "invoice", "payment", "amount", "due", "charge",
      "procedure code", "CPT", "service date", "balance"],
     none,
     ⟨65, 100⟩⟩),
   (.consent_form,
    ⟨["consent", "agreement", "authorization", "permission",
      "procedure", "risks", "benefits", "alternatives", "signature"],
     some ["consent", "signature", "authorize", "agree"],
     ⟨7, 10⟩⟩)]

/-- Number of keywords of the rule contained (case-insensitively, as
substrings) in the document text. -/
def keywordScore (text_lower : String) (kws : List String) : Nat :=
  kws.countP (fun k => strContains text_lower (lowerStr k))

/-- The normalised score of one rule on a text: keyword hits divided by the
keyword count, halved when a configured required pattern fails to match and
the score is positive. -/
def normScore (text : String) (r : CRule) : F :=
  let score : Nat := keywordScore (lowerStr text) r.keywords
  let maxScore : Nat := r.keywords.length
  let ns : F := if maxScore > 0 then (F.ofNat score).div (F.ofNat maxScore) else ⟨0, 1⟩
  match r.required_pattern with
  | some alts =>
    if F.lt ⟨0, 1⟩ ns then
      (if searchWordAlt text alts then ns else ns.mul ⟨1, 2⟩)
    else ns
  | none => ns

/-- One iteration of the classification loop: adopt the rule as the new best
match when its score reaches the threshold and strictly exceeds the best
score so far. -/
def classifyStep (text : String) (best : DocumentType × F) (p : DocumentType × CRule) :
    DocumentType × F :=
  let ns := normScore text p.2
  if p.2.score_threshold.le ns && best.2.lt ns then (p.1, ns) else best

/-- Document classification (`DocumentCategorizer.classify_document`):
fold the rule table in order, starting from `(unknown, 0.0)`. -/
def classify_document (text : String) : DocumentType × F :=
  classification_rules.foldl (classifyStep text) (.unknown, ⟨0, 1⟩)

/-! ## Extractive summarisation (`enhancement.summarize_report`)

The sentence segmentation is performed by the external spaCy model and the
per-sentence centrality scores by the networkx `pagerank` call; both are
passed as parameters (`segment` and `scoresOpt`, with `scoresOpt = none`
modelling the caught ranking exception). -/

/-- Python string comparison (lexicographic by code point): `a ≤ b`. -/
def charListLe : List Char → List Char → Bool
  | [], _ => true
  | _ :: _, [] => false
  | a :: as, b :: bs => if a == b then charListLe as bs else a.toNat < b.toNat

def strLe (a b : String) : Bool := charListLe a.data b.data

/-- Comparator for `sorted(..., reverse=True)` over `(score, sentence)`
pairs: `a` may precede `b` exactly when `a` is lexicographically greater or
equal (float comparison on the score first, string comparison on the
sentence as tie-break). -/
def rankGe (a b : F × String) : Bool :=
  if a.1.beqv b.1 then strLe b.2 a.2 else F.lt b.1 a.1

/-- The summariser (`summarize_report`).  Texts segmenting into fewer than
three sentences are returned unchanged; otherwise the top
`max(1, int(n * frac))` sentences by score are selected and re-emitted in
original document order, joined by single spaces; on ranking failure the
first `max(1, int(n * frac))` sentences are joined instead.  (`frac` is the
`ratio` parameter of the source, default `0.2`.) -/
def summarize_report (segment : String → List String) (scoresOpt : Option (Nat → F))
    (text : String) (frac : F) : String :=
  let sentences := (segment text).map pyStrip
  if sentences.length < 3 then text
  else
    let summary_length : Nat :=
      (max 1 ((F.ofNat sentences.length).mul frac).truncInt).toNat
    match scoresOpt with
    | none => String.intercalate " " (sentences.take summary_length)
    | some f =>
      let pairs := ((List.range sentences.length).zip sentences).map
        (fun p => (f p.1, p.2))
      let ranked := stableSort rankGe pairs
      let summary_sentences := (ranked.take summary_length).map (·.2)
      let ordered_summary := sentences.filter (fun s => summary_sentences.contains s)
      String.intercalate " " ordered_summary

/-! ## Backtracking parsers for the regex patterns of the source

A parser maps the remaining character list to the list of all parses, in the
preference order of the Python `re` backtracking engine (first alternative
first, greedy repetition longest first); each parse carries the consumed
characters and the rest.  Scanning takes the first parse that also satisfies
the word-boundary requirements, and `re.finditer` is modelled by advancing
past each match (or by one character when no match starts here). -/

def PR (α : Type) : Type := List Char → List (α × List Char)

def prChar (p : Char → Bool) : PR (List Char) := fun cs =>
  match cs with
  | c :: rest => if p c then [([c], rest)] else []
  | [] => []

def prStr (s : String) : PR (List Char) := fun cs =>
  if listIsPre s.data cs then [(s.data, cs.drop s.data.length)] else []

def prThen (p : PR α) (q : PR β) : PR (α × β) := fun cs =>
  (p cs).flatMap (fun pr => (q pr.2).map (fun qr => ((pr.1, qr.1), qr.2)))

def prMap (f : α → β) (p : PR α) : PR β := fun cs =>
  (p cs).map (fun pr => (f pr.1, pr.2))

def prAlt (ps : List (PR α)) : PR α := fun cs => ps.flatMap (fun p => p cs)

/-- Greedy option `X?`: the present parse is preferred. -/
def prOpt (p : PR (List Char)) : PR (List Char) := fun cs => p cs ++ [([], cs)]

/-- Greedy star over a character class (`\s*`, `\d*`): longest first. -/
def prMany (p : Char → Bool) : PR (List Char) := fun cs =>
  let run := cs.takeWhile p
  (List.range (run.length + 1)).reverse.map (fun k => (run.take k, cs.drop k))

/-- Greedy plus over a character class (`\d+`, `\s+`): longest first. -/
def prPlus (p : Char → Bool) : PR (List Char) := fun cs =>
  let run := cs.takeWhile p
  (List.range run.length).reverse.map (fun k => (run.take (k + 1), cs.drop (k + 1)))

/-- Sequencing that concatenates consumed characters. -/
def prCat (p q : PR (List Char)) : PR (List Char) :=
  prMap (fun r => r.1 ++ r.2) (prThen p q)

def charBetween (lo hi c : Char) : Bool :=
  lo.toNat ≤ c.toNat && c.toNat ≤ hi.toNat

/-- A matcher produced from a parser: given the preceding character and the
rest of the text, the first parse (in preference order) whose consumed text
has word boundaries on both sides, as required by the `\b ... \b` framing of
the source patterns. -/
def matchWithBounds (p : PR (α × List Char)) (pre : Option Char) (cs : List Char) :
    Option (α × List Char) :=
  ((p cs).filter (fun r =>
    boundaryB pre r.1.2.head? && boundaryB r.1.2.getLast? r.2.head?)).head?.map (·.1)

/-- The `re.finditer` loop: scan left to right, emit non-overlapping matches
(each as start position, consumed characters and captures), resuming after
each match. -/
def scanGo (m : Option Char → List Char → Option (α × List Char)) :
    Nat → Option Char → Nat → List Char → List (Nat × List Char × α)
  | 0, _, _, _ => []
  | _ + 1, _, _, [] => []
  | fuel + 1, pre, pos, c :: cs =>
    match m pre (c :: cs) with
    | some (a, consumed) =>
      match consumed with
      | [] => scanGo m fuel (some c) (pos + 1) cs
      | _ =>
        (pos, consumed, a) ::
          scanGo m fuel (consumed.getLast?.getD c) (pos + consumed.length)
            ((c :: cs).drop consumed.length)
    | none => scanGo m fuel (some c) (pos + 1) cs

def scanAll (m : Option Char → List Char → Option (α × List Char)) (text : String) :
    List (Nat × List Char × α) :=
  scanGo m (text.data.length + 1) none 0 text.data

/-! ## Date extraction (`DocumentCategorizer.extract_dates`) -/

/-- A date mention (`position` is named `span` here, `type` is `dtype`). -/
structure DateMention where
  date : String
  raw_text : String
  span : Nat × Nat
  context : String
  dtype : String
deriving DecidableEq

/-- Month group `(0?[1-9]|1[0-2])`. -/
def pMonthNum : PR (List Char) :=
  prAlt [prCat (prOpt (prStr "0")) (prChar (charBetween '1' '9')),
         prCat (prStr "1") (prChar (charBetween '0' '2'))]

/-- Day group `(0?[1-9]|[12][0-9]|3[01])`. -/
def pDayNum : PR (List Char) :=
  prAlt [prCat (prOpt (prStr "0")) (prChar (charBetween '1' '9')),
         prCat (prChar (charBetween '1' '2')) (prChar Char.isDigit),
         prCat (prStr "3") (prChar (charBetween '0' '1'))]

/-- Separator class `[\/\-]`. -/
def pDateSep : PR (List Char) := prChar (fun c => c == '/' || c == '-')

/-- Century group `(19|20)`. -/
def pCentury : PR (List Char) := prAlt [prStr "19", prStr "20"]

def pTwoDigits : PR (List Char) := prCat (prChar Char.isDigit) (prChar Char.isDigit)

/-- Pattern 1, `\b(0?[1-9]|1[0-2])[\/\-](0?[1-9]|[12][0-9]|3[01])[\/\-](19|20)?\d{2}\b`;
captures `(month, day, optional century)` together with the consumed text. -/
def p1Pat : PR ((List Char × List Char × Option (List Char)) × List Char) :=
  prMap (fun r =>
      let m := r.1.1.1.1.1
      let s1 := r.1.1.1.1.2
      let d := r.1.1.1.2
      let s2 := r.1.1.2
      let yc := r.1.2
      let dd := r.2
      ((m, d, if yc.isEmpty then none else some yc),
        m ++ s1 ++ d ++ s2 ++ yc ++ dd))
    (prThen (prThen (prThen (prThen (prThen pMonthNum pDateSep) pDayNum) pDateSep)
      (prOpt pCentury)) pTwoDigits)

/-- Pattern 2, `\b(19|20)\d{2}[\/\-](0?[1-9]|1[0-2])[\/\-](0?[1-9]|[12][0-9]|3[01])\b`;
captures `(century, month, day)` with the consumed text.  Note that the
first capture group holds only the two century characters. -/
def p2Pat : PR ((List Char × List Char × List Char) × List Char) :=
  prMap (fun r =>
      let yc := r.1.1.1.1.1
      let dd := r.1.1.1.1.2
      let s1 := r.1.1.1.2
      let m := r.1.1.2
      let s2 := r.1.2
      let d := r.2
      ((yc, m, d), yc ++ dd ++ s1 ++ m ++ s2 ++ d))
    (prThen (prThen (prThen (prThen (prThen pCentury pTwoDigits) pDateSep) pMonthNum)
      pDateSep) pDayNum)

/-- The month-name alternation of pattern 3, in source order; the optional
long form is greedy. -/
def pMonthName : PR (List Char) :=
  prAlt [prCat (prStr "Jan") (prOpt (prStr "uary")),
         prCat (prStr "Feb") (prOpt (prStr "ruary")),
         prCat (prStr "Mar") (prOpt (prStr "ch")),
         prCat (prStr "Apr") (prOpt (prStr "il")),
         prStr "May",
         prCat (prStr "Jun") (prOpt (prStr "e")),
         prCat (prStr "Jul") (prOpt (prStr "y")),
         prCat (prStr "Aug") (prOpt (prStr "ust")),
         prCat (prStr "Sep") (prOpt (prStr "tember")),
         prCat (prStr "Oct") (prOpt (prStr "ober")),
         prCat (prStr "Nov") (prOpt (prStr "ember")),
         prCat (prStr "Dec") (prOpt (prStr "ember"))]

/-- Pattern 3, `\b(MonthName)\s+(0?[1-9]|[12][0-9]|3[01])(?:st|nd|rd|th)?,?\s+(19|20)\d{2}\b`;
captures `(month name, day, century)` with the consumed text. -/
def p3Pat : PR ((List Char × List Char × List Char) × List Char) :=
  prMap (fun r =>
      let mn := r.1.1.1.1.1.1.1
      let w1 := r.1.1.1.1.1.1.2
      let d := r.1.1.1.1.1.2
      let suf := r.1.1.1.1.2
      let com := r.1.1.1.2
      let w2 := r.1.1.2
      let yc := r.1.2
      let dd := r.2
      ((mn, d, yc), mn ++ w1 ++ d ++ suf ++ com ++ w2 ++ yc ++ dd))
    (prThen (prThen (prThen (prThen (prThen (prThen (prThen pMonthName
      (prPlus Char.isWhitespace)) pDayNum)
      (prOpt (prAlt [prStr "st", prStr "nd", prStr "rd", prStr "th"])))
      (prOpt (prStr ","))) (prPlus Char.isWhitespace)) pCentury) pTwoDigits)

/-- The date parser attached to pattern 1.  The source branches on
`len(m.group(3)) == 4`, but the third group can only capture the
two-character century, so the `"20" + group` branch always runs for
four-digit years (and a missing group raises `TypeError` inside the
per-match `try`, dropping the match). -/
def parseDate1 (g : List Char × List Char × Option (List Char)) : Option PDate :=
  match g.2.2 with
  | none => none
  | some p =>
    let ystr := if p.length == 4 then p else '2' :: '0' :: p
    let y := natOfDigits ystr
    let m := natOfDigits g.1
    let d := natOfDigits g.2.1
    if isValidDate y m d then some ⟨y, m, d⟩ else none

/-- The date parser attached to pattern 2: `strptime` of
`"{century}/{month}/{day}"` with format `%Y/%m/%d`, so the year is the
numeric value of the two captured century characters. -/
def parseDate2 (g : List Char × List Char × List Char) : Option PDate :=
  let y := natOfDigits g.1
  let m := natOfDigits g.2.1
  let d := natOfDigits g.2.2
  if isValidDate y m d then some ⟨y, m, d⟩ else none

def monthNum (mn : List Char) : Nat :=
  match mn.take 3 with
  | ['J', 'a', 'n'] => 1
  | ['F', 'e', 'b'] => 2
  | ['M', 'a', 'r'] => 3
  | ['A', 'p', 'r'] => 4
  | ['M', 'a', 'y'] => 5
  | ['J', 'u', 'n'] => 6
  | ['J', 'u', 'l'] => 7
  | ['A', 'u', 'g'] => 8
  | ['S', 'e', 'p'] => 9
  | ['O', 'c', 't'] => 10
  | ['N', 'o', 'v'] => 11
  | ['D', 'e', 'c'] => 12
  | _ => 0

/-- The date parser attached to pattern 3: `strptime` of
`"{name} {day} {century}"` with `%B`/`%b`, so again the year is the numeric
value of the century capture. -/
def parseDate3 (g : List Char × List Char × List Char) : Option PDate :=
  let y := natOfDigits g.2.2
  let m := monthNum g.1
  let d := natOfDigits g.2.1
  if isValidDate y m d then some ⟨y, m, d⟩ else none

/-- Semantic date-type classification from the context window (first
matching keyword family wins). -/
def dateTypeOf (context : String) : String :=
  let cl := lowerStr context
  if ["collect", "drawn", "specimen", "sample"].any (strContains cl) then "collection_date"
  else if ["report", "resulted", "result"].any (strContains cl) then "report_date"
  else if ["birth", "dob", "born"].any (strContains cl) then "birth_date"
  else if ["admit", "admission"].any (strContains cl) then "admission_date"
  else if ["discharge"].any (strContains cl) then "discharge_date"
  else if ["service", "visit"].any (strContains cl) then "service_date"
  else "unknown"

/-- Assemble the mentions of one date pattern over the text: scan, apply the
per-pattern parser (dropping matches whose parse fails, as the caught
per-match exception does), and attach raw text, span, ±30-character context
and semantic type. -/
def dateMentionsOf (text : String)
    (ms : List (Nat × List Char × α)) (parse : α → Option PDate) :
    List DateMention :=
  ms.foldl (fun acc m =>
    match parse m.2.2 with
    | none => acc
    | some dt =>
      let start := m.1
      let stop := m.1 + m.2.1.length
      let ctx := pyStrip (sliceStr text (start - 30) (min text.data.length (stop + 30)))
      acc ++ [⟨formatISO dt, String.mk m.2.1, (start, stop), ctx, dateTypeOf ctx⟩]) []

/-- Date extraction (`DocumentCategorizer.extract_dates`): the three
patterns are scanned in order and their mentions concatenated. -/
def extract_dates (text : String) : List DateMention :=
  dateMentionsOf text (scanAll (matchWithBounds p1Pat) text) parseDate1 ++
  dateMentionsOf text (scanAll (matchWithBounds p2Pat) text) parseDate2 ++
  dateMentionsOf text (scanAll (matchWithBounds p3Pat) text) parseDate3

/-! ## Numeric value extraction (`DocumentCategorizer.extract_numeric_values`) -/

/-- A captured numeric string `\d+\.?\d*` converted by the Python `float`. -/
def floatOfChars (cs : List Char) : F :=
  let ip := cs.takeWhile Char.isDigit
  match cs.dropWhile Char.isDigit with
  | '.' :: fp => ratOfDigits ip fp
  | _ => ratOfDigits ip []

/-- Optional sub-pattern that keeps a capture (`none` when absent, which the
Python `match.group` reports as `None`). -/
def prOptC (p : PR (α × List Char)) : PR (Option α × List Char) := fun cs =>
  ((p cs).map (fun r => ((some r.1.1, r.1.2), r.2))) ++ [((none, []), cs)]

/-- The comparator class `(?:<|>|≤|≥|=)?`. -/
def pComparator : PR (List Char) :=
  prOpt (prChar (fun c => c == '<' || c == '>' || c == '≤' || c == '≥' || c == '='))

/-- The numeric group `(\d+\.?\d*)`. -/
def pNumber : PR (List Char) :=
  prCat (prPlus Char.isDigit) (prCat (prOpt (prStr ".")) (prMany Char.isDigit))

/-- The range-separator group `(-|to|–)?` (capturing). -/
def pRangeSep : PR (Option (List Char) × List Char) :=
  prOptC (prMap (fun c => (c, c)) (prAlt [prStr "-", prStr "to", prStr "–"]))

/-- The optional second value `(?:(?:<|>|≤|≥|=)?\s*(\d+\.?\d*))?`, capturing
only the number. -/
def pSecondValue : PR (Option (List Char) × List Char) :=
  prOptC (prMap (fun r => (r.2, r.1.1 ++ r.1.2 ++ r.2))
    (prThen (prThen pComparator (prMany Char.isWhitespace)) pNumber))

/-- The clinical-unit alternation of the value pattern, in source order. -/
def unitAlts : List String :=
  ["mg", "g", "kg", "mcg", "ng", "mL", "L", "dL", "mmol", "μmol", "IU", "mIU",
   "pmol", "U", "mEq", "mmHg", "cm", "mm", "m", "%", "pg", "fL", "μL", "μg",
   "mOsm", "units", "mU", "μU", "nmol", "mU/mL", "μg/dL", "mg/dL", "g/dL",
   "mmol/L", "μmol/L", "ng/mL", "ng/dL", "pg/mL", "mEq/L", "IU/L", "U/L", "mm/h"]

def pUnit : PR (Option (List Char) × List Char) :=
  prOptC (prMap (fun c => (c, c)) (prAlt (unitAlts.map prStr)))

/-- The trailing non-capturing `(?:\/(?:L|dL|mL|h))?`. -/
def pUnitTail : PR (List Char) :=
  prOpt (prCat (prStr "/") (prAlt [prStr "L", prStr "dL", prStr "mL", prStr "h"]))

/-- The combined value pattern of `extract_numeric_values` (between its `\b`
anchors); captures `(value, range separator, second value, unit)` together
with the consumed text. -/
def pValuePat :
    PR ((List Char × Option (List Char) × Option (List Char) × Option (List Char)) ×
      List Char) :=
  prMap (fun r =>
      let cmp := r.1.1.1.1.1.1.1.1.1
      let w1 := r.1.1.1.1.1.1.1.1.2
      let g1 := r.1.1.1.1.1.1.1.2
      let w2 := r.1.1.1.1.1.1.2
      let g2 := r.1.1.1.1.1.2
      let w3 := r.1.1.1.1.2
      let g3 := r.1.1.1.2
      let w4 := r.1.1.2
      let g4 := r.1.2
      let tail := r.2
      ((g1, g2.1, g3.1, g4.1),
        cmp ++ w1 ++ g1 ++ w2 ++ g2.2 ++ w3 ++ g3.2 ++ w4 ++ g4.2 ++ tail))
    (prThen (prThen (prThen (prThen (prThen (prThen (prThen (prThen (prThen
      pComparator (prMany Char.isWhitespace)) pNumber) (prMany Char.isWhitespace))
      pRangeSep) (prMany Char.isWhitespace)) pSecondValue) (prMany Char.isWhitespace))
      pUnit) pUnitTail)

/-- Case-insensitive literal, for patterns compiled with `re.IGNORECASE`
(the given pattern string is lower case; the capture keeps the original
text). -/
def prStrCI (s : String) : PR (List Char) := fun cs =>
  let n := s.data.length
  let pre := cs.take n
  if pre.length == n && (pre.map Char.toLower) == s.data then [(pre, cs.drop n)]
  else []

/-- The reference-range pattern
`(?:reference|normal|ref|range)(?:\s+range)?[:\s]+([<>]?\s*\d+\.?\d*\s*(?:-|to|–)\s*[<>]?\s*\d+\.?\d*)`,
searched case-insensitively inside the context window; the capture is
returned. -/
def pRefRange : PR (List Char × List Char) :=
  prMap (fun r =>
      let head := r.1.1.1.1
      let rng := r.1.1.1.2
      let sep := r.1.1.2
      let cap := r.1.2 ++ r.2
      (cap, head ++ rng ++ sep ++ cap))
    (prThen (prThen (prThen (prThen
      (prAlt [prStrCI "reference", prStrCI "normal", prStrCI "ref", prStrCI "range"])
      (prOpt (prCat (prPlus Char.isWhitespace) (prStrCI "range"))))
      (prPlus (fun c => c == ':' || c.isWhitespace)))
      (prCat (prCat (prCat (prCat (prOpt (prChar (fun c => c == '<' || c == '>')))
        (prMany Char.isWhitespace)) pNumber) (prMany Char.isWhitespace))
        (prAlt [prStr "-", prStrCI "to", prStr "–"])))
      (prCat (prCat (prMany Char.isWhitespace)
        (prOpt (prChar (fun c => c == '<' || c == '>'))))
        (prCat (prMany Char.isWhitespace) pNumber)))

/-- The `re.search` loop: first match anywhere in the text (no word-boundary
framing in the searched pattern). -/
def searchGo (p : PR (α × List Char)) : Nat → List Char → Option α
  | 0, _ => none
  | _ + 1, [] => ((p []).head?).map (fun r => r.1.1)
  | fuel + 1, c :: cs =>
    match (p (c :: cs)).head? with
    | some r => some r.1.1
    | none => searchGo p fuel cs

def searchFirst (p : PR (α × List Char)) (text : String) : Option α :=
  searchGo p (text.data.length + 1) text.data

/-- A numeric-value mention (`position` is `span`, `type` is `mtype`). -/
structure NumMention where
  value : Option F
  high_value : Option F
  unit : String
  raw_text : String
  span : Nat × Nat
  context : String
  mtype : String
  reference_range : Option String
deriving DecidableEq

/-- Measurement-type classification from the context window (first matching
keyword family wins). -/
def measTypeOf (context : String) : String :=
  let cl := lowerStr context
  if ["glucose", "blood sugar"].any (strContains cl) then "glucose"
  else if ["hba1c", "a1c", "hemoglobin a1c"].any (strContains cl) then "hba1c"
  else if ["cholesterol", "ldl", "hdl", "triglycerides"].any (strContains cl) then "lipid_panel"
  else if ["blood pressure", "bp", "systolic", "diastolic"].any (strContains cl) then "blood_pressure"
  else if ["heart rate", "pulse"].any (strContains cl) then "heart_rate"
  else if ["temperature", "temp"].any (strContains cl) then "temperature"
  else if ["weight", "wt"].any (strContains cl) then "weight"
  else if ["height", "ht"].any (strContains cl) then "height"
  else "unknown"

/-- Numeric value extraction (`DocumentCategorizer.extract_numeric_values`):
scan the combined value pattern, and for every match build a mention with
`float` conversions of the captured numbers, the unit (empty when absent),
the ±30-character context, its measurement type and an optional reference
range found inside the context. -/
def extract_numeric_values (text : String) : List NumMention :=
  (scanAll (matchWithBounds pValuePat) text).foldl (fun acc m =>
    let g := m.2.2
    let start := m.1
    let stop := m.1 + m.2.1.length
    let ctx := pyStrip (sliceStr text (start - 30) (min text.data.length (stop + 30)))
    let refR := (searchFirst pRefRange ctx).map String.mk
    acc ++ [⟨some (floatOfChars g.1), g.2.2.1.map floatOfChars,
      String.mk ((g.2.2.2).getD []), String.mk m.2.1, (start, stop), ctx,
      measTypeOf ctx, refR⟩]) []

/-! ## Cross-referencing (`enhancement.cross_reference_with_records`)

The spaCy entity tagger and the TF-IDF cosine-similarity row (one
`fit_transform` of the vectorizer plus the `cosine_similarity` call) are
external computations, passed in as the parameters `ents` and `tfidfCos`;
the second component of the result counts how many times the vectorizer
pipeline ran, so the no-vectorization part of the empty-input contract is
visible in the model. -/

/-- A tagged entity `(text, label)` produced by the external model. -/
structure Ent where
  text : String
  label : String

/-- The permissive date pattern of `extract_key_findings` and
`cross_reference_with_records` (compiled with `re.IGNORECASE`): a month
prefix `(?:jan|...|dec)[a-z]*` followed by `\s+\d{1,2},?\s+\d{4}`, or the
numeric alternative of one-or-two-digit day and month and a two-to-four
digit year separated by dash or slash, both branches framed by `\b`. -/
def pLooseMonth : PR (List Char) :=
  prAlt (["jan", "feb", "mar", "apr", "may", "jun", "jul", "aug", "sep", "oct",
    "nov", "dec"].map prStrCI)

def pDigits12 : PR (List Char) :=
  prAlt [prCat (prChar Char.isDigit) (prChar Char.isDigit), prChar Char.isDigit]

def pDigits24 : PR (List Char) :=
  prAlt [prCat (prCat (prCat (prChar Char.isDigit) (prChar Char.isDigit))
           (prChar Char.isDigit)) (prChar Char.isDigit),
         prCat (prCat (prChar Char.isDigit) (prChar Char.isDigit)) (prChar Char.isDigit),
         prCat (prChar Char.isDigit) (prChar Char.isDigit)]

def pLooseDate1 : PR (Unit × List Char) :=
  prMap (fun r => ((),
      r.1.1.1.1.1 ++ r.1.1.1.1.2 ++ r.1.1.1.2 ++ r.1.1.2 ++ r.1.2 ++ r.2))
    (prThen (prThen (prThen (prThen (prThen pLooseMonth
      (prMany (fun c => charBetween 'a' 'z' c.toLower)))
      (prPlus Char.isWhitespace)) pDigits12)
      (prCat (prOpt (prStr ",")) (prPlus Char.isWhitespace)))
      (prCat (prCat (prCat (prChar Char.isDigit) (prChar Char.isDigit))
        (prChar Char.isDigit)) (prChar Char.isDigit)))

def pLooseDate2 : PR (Unit × List Char) :=
  prMap (fun r => ((),
      r.1.1.1.1 ++ r.1.1.1.2 ++ r.1.1.2 ++ r.1.2 ++ r.2))
    (prThen (prThen (prThen (prThen pDigits12
      (prChar (fun c => c == '-' || c == '/'))) pDigits12)
      (prChar (fun c => c == '-' || c == '/'))) pDigits24)

/-- One alternation step of the loose date pattern: the first branch is
preferred at equal start positions. -/
def looseDateMatch (pre : Option Char) (cs : List Char) :
    Option (Unit × List Char) :=
  match matchWithBounds pLooseDate1 pre cs with
  | some r => some r
  | none => matchWithBounds pLooseDate2 pre cs

/-- All date strings mentioned in a text (the Python code wraps the matches
in a `set`; the model keeps the set of raw strings). -/
def looseDateSet (text : String) : Finset String :=
  ((scanAll looseDateMatch text).map (fun m => String.mk m.2.1)).toFinset

/-- The entity labels whose texts count as clinical key terms. -/
def keyLabels : List String := ["DISEASE", "CONDITION", "CHEMICAL", "DRUG", "TREATMENT"]

def keyTermSet (ents : String → List Ent) (t : String) : Finset String :=
  (((ents t).filter (fun e => keyLabels.contains e.label)).map
    (fun e => lowerStr e.text)).toFinset

structure RelevanceData where
  shared_medical_terms : Finset String
  term_overlap_score : F
  shared_dates : Finset String
  date_overlap_score : F
deriving DecidableEq

structure RelatedDoc where
  record_index : Nat
  similarity_score : F
  combined_relevance_score : F
  relevance_data : RelevanceData
deriving DecidableEq

/-- Result of `cross_reference_with_records`; `total_analyzed = none` models
a dictionary without the `total_analyzed` key. -/
structure CrossRefResult where
  related_documents : List RelatedDoc
  total_analyzed : Option Nat
deriving DecidableEq

/-- Cross-referencing (`cross_reference_with_records`).  An empty
existing-records list returns `{"related_documents": []}` immediately;
otherwise the TF-IDF cosine similarities are computed once (the returned
counter increments), each record is scored for term and date overlap,
records passing the recall gate `similarity > 0.2 or term_overlap > 0.3`
are kept and sorted descending by combined relevance. -/
def cross_reference_with_records (ents : String → List Ent)
    (tfidfCos : String → List String → List F)
    (document_text : String) (existing_records : List String) :
    CrossRefResult × Nat :=
  match existing_records with
  | [] => (⟨[], none⟩, 0)
  | _ =>
    let doc_key_terms := keyTermSet ents document_text
    let doc_dates := looseDateSet document_text
    let sims := tfidfCos document_text existing_records
    let related := existing_records.enum.foldl (fun acc p =>
      let sim := (sims.get? p.1).getD ⟨0, 1⟩
      let record_key_terms := keyTermSet ents p.2
      let shared_terms := doc_key_terms ∩ record_key_terms
      let term_overlap := (F.ofNat shared_terms.card).div
        (F.ofNat (max doc_key_terms.card 1))
      let record_dates := looseDateSet p.2
      let shared_dates := doc_dates ∩ record_dates
      let date_overlap :=
        if doc_dates.card == 0 then (⟨0, 1⟩ : F)
        else (F.ofNat shared_dates.card).div (F.ofNat (max doc_dates.card 1))
      let combined := ((sim.mul ⟨6, 10⟩).add (term_overlap.mul ⟨3, 10⟩)).add
        (date_overlap.mul ⟨1, 10⟩)
      if F.lt ⟨2, 10⟩ sim || F.lt ⟨3, 10⟩ term_overlap then
        acc ++ [⟨p.1, sim, combined,
          ⟨shared_terms, term_overlap, shared_dates, date_overlap⟩⟩]
      else acc) []
    let sorted_docs := stableSort
      (fun a b => F.le b.combined_relevance_score a.combined_relevance_score) related
    (⟨sorted_docs, some existing_records.length⟩, 1)

/-! ## The similarity index
(`DocumentCategorizer.detect_duplicate` / `add_document_to_index`)

The `TfidfVectorizer(ngram_range=(1, 2), min_df=2)` of the source is
modelled from the sklearn documentation: lower-cased token pattern
`\b\w\w+\b`, unigram and bigram features, vocabulary restricted to features
occurring in at least two documents and sorted alphabetically, smoothed
inverse document frequencies `ln((1+n)/(1+df)) + 1`, and l2-normalised
transform vectors.  Vector entries live in `ℝ` because of the logarithm;
comparisons of real similarities are classical, mirroring float comparisons
of the source. -/

def tokenRunsGo (cur : List Char) : List Char → List (List Char)
  | [] => if cur.isEmpty then [] else [cur.reverse]
  | c :: cs =>
    if isWordChar c then tokenRunsGo (c :: cur) cs
    else if cur.isEmpty then tokenRunsGo [] cs
    else cur.reverse :: tokenRunsGo [] cs

/-- sklearn tokenisation: lower-case, then maximal word-character runs of
length at least two (the default token pattern `\b\w\w+\b`). -/
def tokenize (s : String) : List String :=
  ((tokenRunsGo [] (lowerStr s).data).filter (fun r => 2 ≤ r.length)).map String.mk

def bigrams : List String → List String
  | a :: b :: rest => (a ++ " " ++ b) :: bigrams (b :: rest)
  | _ => []

/-- Features of a document under `ngram_range=(1, 2)`: unigrams then
bigrams. -/
def featuresOf (s : String) : List String := tokenize s ++ bigrams (tokenize s)

/-- Document frequency of a feature over a corpus. -/
def docFreq (corpus : List String) (f : String) : Nat :=
  corpus.countP (fun d => (featuresOf d).contains f)

/-- The fitted vocabulary (feature list): features of the corpus with
document frequency at least `min_df = 2`, sorted alphabetically. -/
def fitFeatures (corpus : List String) : List String :=
  stableSort strLe (((corpus.flatMap featuresOf).dedup).filter
    (fun f => 2 ≤ docFreq corpus f))

/-- Smoothed inverse document frequency of one feature. -/
noncomputable def idfOf (corpus : List String) (f : String) : ℝ :=
  Real.log ((1 + (corpus.length : ℝ)) / (1 + (docFreq corpus f : ℝ))) + 1

/-- Fitting the vectorizer stores the vocabulary with its idf weights. -/
noncomputable def fitVocab (corpus : List String) : List (String × ℝ) :=
  (fitFeatures corpus).map (fun f => (f, idfOf corpus f))

def termCount (d f : String) : Nat := (featuresOf d).count f

def dotl (u v : List ℝ) : ℝ := ((u.zip v).map (fun p => p.1 * p.2)).sum

noncomputable def rawTfidf (V : List (String × ℝ)) (d : String) : List ℝ :=
  V.map (fun p => (termCount d p.1 : ℝ) * p.2)

noncomputable def l2norm (v : List ℝ) : ℝ := Real.sqrt (dotl v v)

/-- The transform of a document against a fitted vocabulary: term counts
weighted by idf, l2-normalised (a zero row stays zero, both in sklearn and
under the division-by-zero convention of `ℝ`). -/
noncomputable def transform (V : List (String × ℝ)) (d : String) : List ℝ :=
  let u := rawTfidf V d
  u.map (fun x => x / l2norm u)

/-- `sklearn.metrics.pairwise.cosine_similarity` of two vectors. -/
noncomputable def cosine_similarity (u v : List ℝ) : ℝ :=
  dotl u v / (l2norm u * l2norm v)

/-- The mutable state of a `DocumentCategorizer`: the fitted vocabulary (if
any), the `(raw text, optional vector)` list and the id list. -/
structure CategorizerState where
  vocab : Option (List (String × ℝ))
  document_vectors : List (String × Option (List ℝ))
  document_ids : List String

/-- The state right after `DocumentCategorizer.__init__`. -/
def initState : CategorizerState := ⟨none, [], []⟩

/-- `add_document_to_index`: append the text (vectorised only when the
vocabulary is already fit) and the id. -/
noncomputable def add_document_to_index (st : CategorizerState)
    (doc_id text : String) : CategorizerState :=
  let doc_vector : Option (List ℝ) :=
    match st.vocab with
    | some V => some (transform V text)
    | none => none
  { st with
    document_vectors := st.document_vectors ++ [(text, doc_vector)],
    document_ids := st.document_ids ++ [doc_id] }

/-- The result dictionary of `detect_duplicate` (`is_duplicate` is the
proposition that the float comparison of the source returns true). -/
structure DupResult where
  is_duplicate : Prop
  similarity_score : ℝ
  similar_document_id : Option String

open Classical in
/-- The comparison loop of `detect_duplicate` over
`zip(document_ids, document_vectors)`, tracking the maximal similarity and
its id.  A missing vector would make the Python `cosine_similarity` call
raise; the fit branch guarantees this cannot happen. -/
noncomputable def dupLoop (current : List ℝ) :
    List (String × (String × Option (List ℝ))) → ℝ × Option String →
      Except String (ℝ × Option String)
  | [], acc => .ok acc
  | p :: rest, acc =>
    match p.2.2 with
    | none => .error "unvectorized document"
    | some dv =>
      let sim := cosine_similarity current dv
      if acc.1 < sim then dupLoop current rest (sim, some p.1)
      else dupLoop current rest acc

open Classical in
/-- The tail of `detect_duplicate` once a vocabulary `V` is available:
vectorise the query, run the comparison loop and build the result
dictionary. -/
noncomputable def detectTail (st : CategorizerState) (V : List (String × ℝ))
    (text : String) (threshold : ℝ) : Except String DupResult :=
  let current := transform V text
  match dupLoop current (st.document_ids.zip st.document_vectors) (0, none) with
  | .error e => .error e
  | .ok acc =>
    .ok ⟨threshold ≤ acc.1, acc.1, if threshold ≤ acc.1 then acc.2 else none⟩

/-- `detect_duplicate`: empty corpus short-circuits; an unfitted vocabulary
is fit over the query text followed by all stored raw texts (raising the
sklearn `ValueError` when no feature survives `min_df`, which leaves the
state unchanged), and every stored document is re-vectorised against the
fitted vocabulary; then the query is compared against every stored
vector. -/
noncomputable def detect_duplicate (st : CategorizerState) (text : String)
    (threshold : ℝ) : Except String DupResult × CategorizerState :=
  match st.document_vectors with
  | [] => (.ok ⟨False, 0, none⟩, st)
  | _ :: _ =>
    match st.vocab with
    | some V => (detectTail st V text threshold, st)
    | none =>
      let corpus := text :: st.document_vectors.map Prod.fst
      match fitFeatures corpus with
      | [] => (.error "empty vocabulary", st)
      | _ :: _ =>
        let V := fitVocab corpus
        let st2 : CategorizerState :=
          { st with
            vocab := some V,
            document_vectors := st.document_vectors.map
              (fun p => (p.1, some (transform V p.1))) }
        (detectTail st2 V text threshold, st2)

end Phrm

-- ===================== THEOREMS =====================

namespace Phrm

/-- C1.  The claim states that `extract_dates` yields a mention normalised
to `"2025-07-03"` for each of the inputs `"07/03/2025"`, `"2025-07-03"` and
`"July 3, 2025"`.  The code disagrees: the year capture groups of all three
patterns hold only the two century characters, so `"07/03/2025"` is
normalised to `"2020-07-03"` and the other two inputs to a year-20 date
(the dead `len(m.group(3)) == 4` branch of the first parser shows the
intended handling of four-digit years); no mention carries the date
`"2025-07-03"`. -/
theorem c1_extract_dates_mangles_years :
    (extract_dates "07/03/2025").map DateMention.date = ["2020-07-03"] ∧
    (extract_dates "2025-07-03").map DateMention.date = ["0020-07-03"] ∧
    (extract_dates "July 3, 2025").map DateMention.date = ["0020-07-03"] ∧
    ∀ m ∈ extract_dates "07/03/2025" ++ extract_dates "2025-07-03" ++
      extract_dates "July 3, 2025", m.date ≠ "2025-07-03" := by
  refine ⟨by decide, by decide, by decide, by decide⟩

/-- C2 counterexample.  On `"Blood Pressure: 130/85 mmHg"` the code yields
two mentions, neither of which has a `high_value` — the range separator of
the value pattern is `(-|to|–)`, which does not include the slash — so the
claimed single mention with `value 130`, `high_value 85` and unit `mmHg`
does not exist. -/
theorem c2_counterexample :
    (extract_numeric_values "Blood Pressure: 130/85 mmHg").length = 2 ∧
    (extract_numeric_values "Blood Pressure: 130/85 mmHg").map
      NumMention.high_value = [none, none] := by
  exact ⟨by decide, by decide⟩

/-- C2 amended.  `extract_numeric_values` on `"Blood Pressure: 130/85 mmHg"`
yields exactly two blood-pressure-context mentions: one with value `130.0`,
no high value and empty unit (raw text `"130"`), and one with value `85.0`
and unit `"mmHg"` (raw text `"85 mmHg"`). -/
theorem c2_two_mentions :
    extract_numeric_values "Blood Pressure: 130/85 mmHg" =
    [⟨some ⟨130, 1⟩, none, "", "130", (16, 19), "Blood Pressure: 130/85 mmHg",
      "blood_pressure", none⟩,
     ⟨some ⟨85, 1⟩, none, "mmHg", "85 mmHg", (20, 27), "Blood Pressure: 130/85 mmHg",
      "blood_pressure", none⟩] := by decide

/-- C3 counterexample.  With five (distinct) sentences and ratio `1/2` the
code selects `max(1, int(5 * 0.5)) = 2` sentences — `int` truncates, it
does not take the ceiling — so on the ranking-failure path the summary is
the first two sentences, not the claimed `max(1, ceil(5 * 0.5)) = 3`. -/
theorem c3_counterexample :
    summarize_report
      (fun _ => ["One alpha.", "Two beta.", "Three gamma.", "Four delta.",
        "Five epsilon."]) none "doc" ⟨1, 2⟩ = "One alpha. Two beta." ∧
    "One alpha. Two beta." ≠
      String.intercalate " " ["One alpha.", "Two beta.", "Three gamma."] := by
  exact ⟨by decide, by decide⟩

/-- C4 counterexample.  `cross_reference_with_records(text, [])` returns the
dictionary `{"related_documents": []}` without a `total_analyzed` key, so
the claimed result `{related_documents: [], total_analyzed: 0}` is not what
the early return produces. -/
theorem c4_counterexample :
    (cross_reference_with_records (fun _ => []) (fun _ _ => [])
      "Patient note" []).1.total_analyzed = none ∧
    (cross_reference_with_records (fun _ => []) (fun _ _ => [])
      "Patient note" []).1 ≠ (⟨[], some 0⟩ : CrossRefResult) := by
  exact ⟨by decide, by decide⟩

/-- C4 amended.  For every entity tagger, every vectorizer pipeline and
every target text, `cross_reference_with_records` on an empty
existing-records list returns `{"related_documents": []}` (no
`total_analyzed` key) and performs no vector computation (the pipeline
counter stays zero). -/
theorem c4_empty_records (ents : String → List Ent)
    (tfidfCos : String → List String → List F) (document_text : String) :
    cross_reference_with_records ents tfidfCos document_text [] =
      (⟨[], none⟩, 0) := rfl

/-- C7.  `identify_trends` on fewer than two documents returns exactly the
insufficiency marker `{"error": "Insufficient data for trend analysis"}` —
in particular no partial trend report — rather than raising. -/
theorem c7_insufficient_data (documents : List TrendDoc)
    (h : documents.length < 2) :
    identify_trends documents = .error "Insufficient data for trend analysis" := by
  unfold identify_trends
  rw [if_pos h]

/-- Witness for C7 at a concrete single-document input. -/
theorem c7_insufficient_data_witness :
    ([(⟨some "2025-01-01", none⟩ : TrendDoc)].length < 2) ∧
    identify_trends [⟨some "2025-01-01", none⟩] =
      .error "Insufficient data for trend analysis" :=
  ⟨by decide, c7_insufficient_data [⟨some "2025-01-01", none⟩] (by decide)⟩

/-- C8.  On two dated documents whose findings carry the same measurement
category with readings 140 then 120, `identify_trends` produces a report
whose change list is exactly one event for that category with direction
`"decrease"` and percent change `-2000/140 = -100/7 ≈ -14.3` (within
`0.1`). -/
theorem c8_change_event :
    (identify_trends
      [⟨some "2025-01-01", some ⟨[("blood_pressure", [.vstr "140"])], [], []⟩⟩,
       ⟨some "2025-02-01", some ⟨[("blood_pressure", [.vstr "120"])], [], []⟩⟩]).isReport
      = true ∧
    (identify_trends
      [⟨some "2025-01-01", some ⟨[("blood_pressure", [.vstr "140"])], [], []⟩⟩,
       ⟨some "2025-02-01", some ⟨[("blood_pressure", [.vstr "120"])], [], []⟩⟩]).changesOf =
    [⟨"measurement", "blood_pressure", "2025-01-01", "2025-02-01",
      ⟨140, 1⟩, ⟨120, 1⟩, ⟨-2000, 140⟩, "decrease"⟩] ∧
    (⟨-2000, 140⟩ : F).toRat = -100 / 7 ∧
    |(⟨-2000, 140⟩ : F).toRat - (-143 / 10)| < 1 / 10 := by
  refine ⟨by decide, by decide, by norm_num [F.toRat], ?_⟩
  have h : (⟨-2000, 140⟩ : F).toRat - (-143 / 10) = 1 / 70 := by norm_num [F.toRat]
  rw [h, abs_of_nonneg (by norm_num)]
  norm_num

/-! ### Shared helper lemmas: the stable sort permutes its input -/

theorem sInsert_perm (le : α → α → Bool) (x : α) (l : List α) :
    List.Perm (sInsert le x l) (x :: l) := by
  induction l with
  | nil => exact List.Perm.refl _
  | cons y ys ih =>
    unfold sInsert
    by_cases h : le y x = true
    · rw [if_pos h]
      exact (ih.cons y).trans (List.Perm.swap x y ys)
    · rw [if_neg h]

theorem foldl_sInsert_perm (le : α → α → Bool) (l acc : List α) :
    List.Perm (l.foldl (fun a y => sInsert le y a) acc) (acc ++ l) := by
  induction l generalizing acc with
  | nil => simp
  | cons x xs ih =>
    simp only [List.foldl_cons]
    have h1 : List.Perm (sInsert le x acc ++ xs) ((x :: acc) ++ xs) :=
      (sInsert_perm le x acc).append_right xs
    have h2 : List.Perm ((x :: acc) ++ xs) (acc ++ x :: xs) := List.perm_middle.symm
    exact (ih (sInsert le x acc)).trans (h1.trans h2)

theorem stableSort_perm (le : α → α → Bool) (l : List α) :
    List.Perm (stableSort le l) l := by
  simpa [stableSort] using foldl_sInsert_perm le l []

/-! ### Shared helper lemmas: fraction comparisons -/

theorem F.not_lt_of_le {a b : F} (h : F.le a b = true) : F.lt b a = false := by
  simp only [F.le, decide_eq_true_eq] at h
  simp only [F.lt, decide_eq_false_iff_not, not_lt]
  exact h

theorem F.zero_lt_of_le_pos {t n : F} (h : F.le t n = true) (htn : 0 < t.num)
    (htd : 0 < t.den) (hnd : 0 < n.den) : F.lt ⟨0, 1⟩ n = true := by
  simp only [F.le, decide_eq_true_eq] at h
  simp only [F.lt, decide_eq_true_eq]
  have hnd' : (0 : Int) < (n.den : Int) := by exact_mod_cast hnd
  have htd' : (0 : Int) < (t.den : Int) := by exact_mod_cast htd
  have h1 : (0 : Int) < t.num * n.den := mul_pos htn hnd'
  have h2 : (0 : Int) < n.num * t.den := lt_of_lt_of_le h1 h
  have h3 : (0 : Int) < n.num := by nlinarith
  simpa using h3

/-! ### Classification fold lemmas (C9) -/

theorem F.div_ofNat_den (a b : Nat) : ((F.ofNat a).div (F.ofNat b)).den = b := by
  rw [F.div, if_neg (by simp [F.ofNat])]
  simp [F.ofNat]

theorem normScore_den_pos (text : String) (r : CRule) (hk : r.keywords.length ≠ 0) :
    0 < (normScore text r).den := by
  have hpos : 0 < r.keywords.length := Nat.pos_of_ne_zero hk
  have hden : ((F.ofNat (keywordScore (lowerStr text) r.keywords)).div
      (F.ofNat r.keywords.length)).den = r.keywords.length := F.div_ofNat_den _ _
  unfold normScore
  cases hp : r.required_pattern with
  | none =>
    simp only [hp, gt_iff_lt, if_pos hpos]
    rw [hden]; exact hpos
  | some alts =>
    simp only [hp, gt_iff_lt, if_pos hpos]
    split
    · split
      · rw [hden]; exact hpos
      · simp only [F.mul, hden]
        positivity
    · rw [hden]; exact hpos

theorem classify_foldl_keep (text : String) (l : List (DocumentType × CRule))
    (b : DocumentType × F)
    (h : ∀ e ∈ l, (e.2.score_threshold.le (normScore text e.2) &&
      b.2.lt (normScore text e.2)) = false) :
    l.foldl (classifyStep text) b = b := by
  induction l with
  | nil => rfl
  | cons e es ih =>
    simp only [List.foldl_cons]
    have hstep : classifyStep text b e = b := by
      simp [classifyStep, h e (by simp)]
    rw [hstep]
    exact ih (fun e' he' => h e' (by simp [he']))

theorem classify_foldl_below (text : String) (l : List (DocumentType × CRule))
    (target : F)
    (h : ∀ e ∈ l, F.le e.2.score_threshold (normScore text e.2) = true →
      F.lt (normScore text e.2) target = true)
    (b : DocumentType × F) (hb : F.lt b.2 target = true) :
    F.lt (l.foldl (classifyStep text) b).2 target = true := by
  induction l generalizing b with
  | nil => simpa
  | cons e es ih =>
    simp only [List.foldl_cons]
    refine ih (fun e' he' hq => h e' (by simp [he']) hq) _ ?_
    by_cases hc : (e.2.score_threshold.le (normScore text e.2) &&
        b.2.lt (normScore text e.2)) = true
    · have hq : F.le e.2.score_threshold (normScore text e.2) = true := by
        have hc2 := hc
        simp only [Bool.and_eq_true] at hc2
        exact hc2.1
      have hlt := h e (by simp) hq
      simpa [classifyStep, hc] using hlt
    · have hc' : (e.2.score_threshold.le (normScore text e.2) &&
          b.2.lt (normScore text e.2)) = false := Bool.eq_false_iff.mpr hc
      simpa [classifyStep, hc'] using hb

/-- Numeric facts about the concrete rule table: positive thresholds with
positive denominators and nonempty keyword lists. -/
theorem rules_facts : ∀ e ∈ classification_rules,
    0 < e.2.score_threshold.num ∧ 0 < e.2.score_threshold.den ∧
      e.2.keywords.length ≠ 0 := by decide

/-- C9.  When the rule table decomposes as `pre ++ ei :: mid ++ ej :: post`
with `ei` and `ej` both qualifying (score at or above their thresholds) at
equal scores, every rule before `ei` scoring strictly below that score when
it qualifies, and every rule after `ei` scoring at most that score when it
qualifies, `classify_document` returns `ei` with its score: the strict
greater-than update never replaces an earlier equal-scoring type, so ties at
the top score resolve to the earliest rule in table order and classification
is deterministic. -/
theorem c9_tie_earliest (text : String)
    (pre mid post : List (DocumentType × CRule)) (ei ej : DocumentType × CRule)
    (hdecomp : classification_rules = pre ++ ei :: (mid ++ ej :: post))
    (h_tie : F.beqv (normScore text ei.2) (normScore text ej.2) = true)
    (h_qi : F.le ei.2.score_threshold (normScore text ei.2) = true)
    (h_qj : F.le ej.2.score_threshold (normScore text ej.2) = true)
    (h_pre : ∀ e ∈ pre, F.le e.2.score_threshold (normScore text e.2) = true →
      F.lt (normScore text e.2) (normScore text ei.2) = true)
    (h_rest : ∀ e ∈ mid ++ ej :: post,
      F.le e.2.score_threshold (normScore text e.2) = true →
      F.le (normScore text e.2) (normScore text ei.2) = true) :
    classify_document text = (ei.1, normScore text ei.2) := by
  have hmem_i : ei ∈ classification_rules := by
    rw [hdecomp]; simp
  obtain ⟨hn, hd, hkw⟩ := rules_facts ei hmem_i
  have hndi : 0 < (normScore text ei.2).den := normScore_den_pos text ei.2 hkw
  have h0 : F.lt ⟨0, 1⟩ (normScore text ei.2) = true :=
    F.zero_lt_of_le_pos h_qi hn hd hndi
  unfold classify_document
  rw [hdecomp, List.foldl_append]
  have hpre := classify_foldl_below text pre (normScore text ei.2) h_pre
    (DocumentType.unknown, ⟨0, 1⟩) h0
  simp only [List.foldl_cons]
  have hcond : (ei.2.score_threshold.le (normScore text ei.2) &&
      (pre.foldl (classifyStep text) (DocumentType.unknown, ⟨0, 1⟩)).2.lt
        (normScore text ei.2)) = true := by
    rw [h_qi, hpre]; rfl
  have hstep : classifyStep text
      (pre.foldl (classifyStep text) (DocumentType.unknown, ⟨0, 1⟩)) ei =
      (ei.1, normScore text ei.2) := by
    simp [classifyStep, hcond]
  rw [hstep]
  apply classify_foldl_keep
  intro e he
  by_cases hq : F.le e.2.score_threshold (normScore text e.2) = true
  · have hle := h_rest e he hq
    simp [hq, F.not_lt_of_le hle]
  · simp [Bool.eq_false_iff.mpr hq]

/-- Witness for C9: on a text containing seven insurance keywords and seven
billing keywords both types score `7/10` above their `0.65` thresholds; the
earlier insurance rule wins the tie. -/
theorem c9_tie_earliest_witness :
    classify_document ("insurance policy coverage premium deductible copay claim " ++
      "bill invoice payment amount due charge balance") =
      (DocumentType.insurance, ⟨7, 10⟩) := by
  have h := c9_tie_earliest
    ("insurance policy coverage premium deductible copay claim " ++
      "bill invoice payment amount due charge balance")
    (classification_rules.take 7) [] [classification_rules.get? 9 |>.getD (.unknown, ⟨[], none, ⟨1, 1⟩⟩)]
    ((.insurance,
      ⟨["insurance", "policy", "coverage", "premium", "deductible",
        "copay", "claim", "benefits", "insured", "group number"], none, ⟨65, 100⟩⟩))
    ((.billing,
      ⟨["bill", "invoice", "payment", "amount", "due", "charge",
        "procedure code", "CPT", "service date", "balance"], none, ⟨65, 100⟩⟩))
    (by decide) (by decide) (by decide) (by decide) (by decide) (by decide)
  rw [h]
  decide

/-! ### Vector lemmas for the similarity index -/

theorem dotl_cons (x y : ℝ) (u v : List ℝ) :
    dotl (x :: u) (y :: v) = x * y + dotl u v := by
  simp [dotl]

theorem dotl_self_nonneg (v : List ℝ) : 0 ≤ dotl v v := by
  induction v with
  | nil => simp [dotl]
  | cons x xs ih =>
    rw [dotl_cons]
    exact add_nonneg (mul_self_nonneg x) ih

theorem dotl_map_div (u : List ℝ) (c : ℝ) :
    dotl (u.map (fun x => x / c)) (u.map (fun x => x / c)) = dotl u u / (c * c) := by
  induction u with
  | nil => simp [dotl]
  | cons x xs ih =>
    simp only [List.map_cons, dotl_cons, ih]
    rw [div_mul_div_comm, div_add_div_same]

theorem transform_dot_self (V : List (String × ℝ)) (d : String)
    (h : dotl (rawTfidf V d) (rawTfidf V d) ≠ 0) :
    dotl (transform V d) (transform V d) = 1 := by
  unfold transform l2norm
  rw [dotl_map_div, Real.mul_self_sqrt (dotl_self_nonneg _), div_self h]

theorem cosine_self (v : List ℝ) (h : dotl v v ≠ 0) : cosine_similarity v v = 1 := by
  unfold cosine_similarity l2norm
  rw [Real.mul_self_sqrt (dotl_self_nonneg v), div_self h]

theorem cosine_transform_self (V : List (String × ℝ)) (d : String)
    (h : dotl (rawTfidf V d) (rawTfidf V d) ≠ 0) :
    cosine_similarity (transform V d) (transform V d) = 1 := by
  apply cosine_self
  rw [transform_dot_self V d h]
  norm_num

/-! ### The vocabulary fitted over a duplicated single-document corpus -/

theorem docFreq_pair (text f : String) (hf : f ∈ featuresOf text) :
    docFreq [text, text] f = 2 := by
  simp [docFreq, List.countP_cons, hf]

theorem mem_fitFeatures_pair {text f : String} (hf : f ∈ featuresOf text) :
    f ∈ fitFeatures [text, text] := by
  unfold fitFeatures
  apply (stableSort_perm _ _).mem_iff.mpr
  rw [List.mem_filter]
  refine ⟨?_, ?_⟩
  · rw [List.mem_dedup]
    exact List.mem_flatMap.mpr ⟨text, by simp, hf⟩
  · simp [docFreq_pair text f hf]

theorem fitFeatures_pair_df {text f : String} (hf : f ∈ fitFeatures [text, text]) :
    docFreq [text, text] f = 2 ∧ f ∈ featuresOf text := by
  unfold fitFeatures at hf
  have hf2 := (stableSort_perm _ _).mem_iff.mp hf
  rw [List.mem_filter] at hf2
  obtain ⟨_, hpred⟩ := hf2
  have h2 : 2 ≤ docFreq [text, text] f := by simpa using hpred
  by_cases hm : f ∈ featuresOf text
  · exact ⟨docFreq_pair text f hm, hm⟩
  · exfalso
    simp [docFreq, List.countP_cons, hm] at h2

theorem idf_pair (text f : String) (hdf : docFreq [text, text] f = 2) :
    idfOf [text, text] f = 1 := by
  unfold idfOf
  rw [hdf, show ([text, text] : List String).length = 2 from rfl]
  norm_num

theorem fitFeatures_pair_ne (text : String) (ht : tokenize text ≠ []) :
    fitFeatures [text, text] ≠ [] := by
  obtain ⟨t, hts⟩ := List.exists_mem_of_ne_nil _ ht
  exact List.ne_nil_of_mem
    (mem_fitFeatures_pair (List.mem_append_left _ hts))

theorem rawTfidf_pair_pos (text : String) (ht : tokenize text ≠ []) :
    dotl (rawTfidf (fitVocab [text, text]) text)
      (rawTfidf (fitVocab [text, text]) text) ≠ 0 := by
  obtain ⟨f0, fs, hFF⟩ := List.exists_cons_of_ne_nil (fitFeatures_pair_ne text ht)
  have hmem : f0 ∈ fitFeatures [text, text] := by rw [hFF]; exact List.mem_cons_self f0 fs
  obtain ⟨hdf, hfeat⟩ := fitFeatures_pair_df hmem
  have hidf : idfOf [text, text] f0 = 1 := idf_pair text f0 hdf
  have hcnt : 1 ≤ termCount text f0 := by
    unfold termCount
    have := List.count_pos_iff.mpr hfeat
    omega
  have hcnt' : (1 : ℝ) ≤ (termCount text f0 : ℝ) := by exact_mod_cast hcnt
  unfold fitVocab rawTfidf
  rw [hFF]
  simp only [List.map_cons, dotl_cons, hidf, mul_one]
  have hrest := dotl_self_nonneg
    ((fs.map (fun f => (f, idfOf [text, text] f))).map
      (fun p => (termCount text p.1 : ℝ) * p.2))
  nlinarith

/-! ### State-shape lemmas of the duplicate detector -/

theorem add_vocab_eq (st : CategorizerState) (doc_id t : String) :
    (add_document_to_index st doc_id t).vocab = st.vocab := rfl

theorem detect_fitted_state (st : CategorizerState) (V : List (String × ℝ))
    (h : st.vocab = some V) (t : String) (thr : ℝ) :
    (detect_duplicate st t thr).2 = st := by
  obtain ⟨vc, dvs, ids⟩ := st
  cases dvs with
  | nil => rfl
  | cons d ds =>
    cases vc with
    | none => exact Option.noConfusion h
    | some W => rfl

/-- C10.  `detect_duplicate` never changes corpus membership: the id list
and the stored raw texts are identical after the call, and when the
vocabulary is already fit the whole state is untouched (so the only
mutations ever performed are the one-time vocabulary fit with its
retroactive vectorisation, and the queried text itself is never added to
the index). -/
theorem c10_detect_frame (st : CategorizerState) (text : String) (threshold : ℝ) :
    (detect_duplicate st text threshold).2.document_ids = st.document_ids ∧
    (detect_duplicate st text threshold).2.document_vectors.map Prod.fst =
      st.document_vectors.map Prod.fst ∧
    (∀ V, st.vocab = some V → (detect_duplicate st text threshold).2 = st) := by
  refine ⟨?_, ?_, fun V hV => detect_fitted_state st V hV text threshold⟩ <;>
  · obtain ⟨vc, dvs, ids⟩ := st
    cases dvs with
    | nil => rfl
    | cons d ds =>
      cases vc with
      | some V => rfl
      | none =>
        simp only [detect_duplicate]
        cases hFF : fitFeatures (text :: ((d :: ds).map Prod.fst)) with
        | nil => rfl
        | cons f fs => simp [List.map_map, Function.comp]

/-- Witness for C10 at a concrete fitted state. -/
theorem c10_detect_frame_witness :
    (detect_duplicate ⟨some [("ab", (1 : ℝ))], [("ab cd", some [1])], ["d9"]⟩
      "xy" (1 / 2)).2.document_ids =
      (⟨some [("ab", (1 : ℝ))], [("ab cd", some [1])], ["d9"]⟩ :
        CategorizerState).document_ids ∧
    (detect_duplicate ⟨some [("ab", (1 : ℝ))], [("ab cd", some [1])], ["d9"]⟩
      "xy" (1 / 2)).2 =
      ⟨some [("ab", (1 : ℝ))], [("ab cd", some [1])], ["d9"]⟩ := by
  refine ⟨(c10_detect_frame _ "xy" (1 / 2)).1, ?_⟩
  exact (c10_detect_frame _ "xy" (1 / 2)).2.2 [("ab", (1 : ℝ))] rfl

/-- C6.  The vocabulary is fit at most once.  On an unfitted state with a
nonempty corpus and a successful fit, `detect_duplicate` installs the
vocabulary fitted over the query text followed by all previously indexed
raw texts and retroactively vectorises every stored document; afterwards no
`add_document_to_index` and no further `detect_duplicate` call ever changes
the stored vocabulary. -/
theorem c6_vocabulary_fit_once (st : CategorizerState) (text : String)
    (threshold : ℝ) (hnone : st.vocab = none) (hne : st.document_vectors ≠ [])
    (hfit : fitFeatures (text :: st.document_vectors.map Prod.fst) ≠ []) :
    ((detect_duplicate st text threshold).2.vocab =
      some (fitVocab (text :: st.document_vectors.map Prod.fst))) ∧
    ((detect_duplicate st text threshold).2.document_vectors =
      st.document_vectors.map (fun p => (p.1,
        some (transform (fitVocab (text :: st.document_vectors.map Prod.fst)) p.1)))) ∧
    (∀ id2 t2,
      (add_document_to_index (detect_duplicate st text threshold).2 id2 t2).vocab =
        (detect_duplicate st text threshold).2.vocab) ∧
    (∀ t3 thr3,
      (detect_duplicate (detect_duplicate st text threshold).2 t3 thr3).2.vocab =
        (detect_duplicate st text threshold).2.vocab) := by
  obtain ⟨vc, dvs, ids⟩ := st
  have hvc : vc = none := hnone
  subst hvc
  cases dvs with
  | nil => exact absurd rfl hne
  | cons d ds =>
    obtain ⟨f, fs, hFF⟩ := List.exists_cons_of_ne_nil hfit
    have hstate : (detect_duplicate ⟨none, d :: ds, ids⟩ text threshold).2 =
        ⟨some (fitVocab (text :: (d :: ds).map Prod.fst)),
         (d :: ds).map (fun p => (p.1,
           some (transform (fitVocab (text :: (d :: ds).map Prod.fst)) p.1))), ids⟩ := by
      simp only [detect_duplicate]
      rw [hFF]
    rw [hstate]
    exact ⟨rfl, rfl, fun id2 t2 => add_vocab_eq _ id2 t2,
      fun t3 thr3 => by
        rw [detect_fitted_state _ (fitVocab (text :: (d :: ds).map Prod.fst)) rfl t3 thr3]⟩

/-- Witness for C6 at a concrete unfitted one-document state. -/
theorem c6_vocabulary_fit_once_witness :
    ((detect_duplicate ⟨none, [("hello world", none)], ["d1"]⟩ "hello there"
      (17 / 20 : ℝ)).2.vocab = some (fitVocab ["hello there", "hello world"])) ∧
    ((detect_duplicate ⟨none, [("hello world", none)], ["d1"]⟩ "hello there"
      (17 / 20 : ℝ)).2.document_vectors =
      [("hello world", some (transform (fitVocab ["hello there", "hello world"])
        "hello world"))]) ∧
    ((add_document_to_index (detect_duplicate ⟨none, [("hello world", none)], ["d1"]⟩
      "hello there" (17 / 20 : ℝ)).2 "d2" "more text").vocab =
      (detect_duplicate ⟨none, [("hello world", none)], ["d1"]⟩ "hello there"
        (17 / 20 : ℝ)).2.vocab) ∧
    ((detect_duplicate (detect_duplicate ⟨none, [("hello world", none)], ["d1"]⟩
      "hello there" (17 / 20 : ℝ)).2 "zz" (1 / 2)).2.vocab =
      (detect_duplicate ⟨none, [("hello world", none)], ["d1"]⟩ "hello there"
        (17 / 20 : ℝ)).2.vocab) := by
  have h := c6_vocabulary_fit_once ⟨none, [("hello world", none)], ["d1"]⟩
    "hello there" (17 / 20 : ℝ) rfl (List.cons_ne_nil _ _) (by decide)
  exact ⟨h.1, h.2.1, h.2.2.1 "d2" "more text", h.2.2.2 "zz" (1 / 2)⟩

/-- C5 counterexample.  The claim quantifies over every text, but on a text
with no token (`"!"`), the first `check_duplicate` after indexing tries to
fit the vectorizer on a corpus with an empty vocabulary and raises the
sklearn `ValueError` instead of returning a similarity result. -/
theorem c5_counterexample :
    (detect_duplicate (add_document_to_index initState "d1" "!") "!"
      (17 / 20 : ℝ)).1 = Except.error "empty vocabulary" := by
  have h1 : add_document_to_index initState "d1" "!" =
      ⟨none, [("!", none)], ["d1"]⟩ := rfl
  rw [h1]
  simp only [detect_duplicate]
  have hFF : fitFeatures ["!", "!"] = [] := by decide
  simp [hFF]

/-- C5 amended.  For any text with at least one vectorizer token, indexing
it and then querying the identical text flags it as a duplicate of itself:
the one-time fit happens over the two identical copies, the query vector
equals the stored vector, the cosine similarity is exactly 1, and
`is_duplicate` holds at the default threshold `0.85`, reporting the indexed
id. -/
theorem c5_roundtrip (doc_id text : String) (h : tokenize text ≠ []) :
    ∃ r, (detect_duplicate (add_document_to_index initState doc_id text) text
      (17 / 20 : ℝ)).1 = Except.ok r ∧ r.similarity_score = 1 ∧
      r.is_duplicate ∧ r.similar_document_id = some doc_id := by
  have h1 : add_document_to_index initState doc_id text =
      ⟨none, [(text, none)], [doc_id]⟩ := rfl
  rw [h1]
  simp only [detect_duplicate]
  obtain ⟨f, fs, hFF⟩ := List.exists_cons_of_ne_nil
    (fitFeatures_pair_ne text h)
  have hcorpus : (text :: ([(text, none)] :
      List (String × Option (List ℝ))).map Prod.fst) = [text, text] := rfl
  rw [hcorpus, hFF]
  simp only [detectTail, dupLoop, List.map_cons, List.map_nil, List.zip_cons_cons,
    List.zip_nil_right]
  have hsim : cosine_similarity (transform (fitVocab [text, text]) text)
      (transform (fitVocab [text, text]) text) = 1 :=
    cosine_transform_self _ _ (rawTfidf_pair_pos text h)
  rw [hsim]
  rw [if_pos (by norm_num : (0 : ℝ) < 1)]
  exact ⟨⟨(17 / 20 : ℝ) ≤ 1, 1, if (17 / 20 : ℝ) ≤ 1 then some doc_id else none⟩,
    rfl, rfl, by norm_num, if_pos (by norm_num)⟩

/-- Witness for C5 at the concrete text `"hello world"`. -/
theorem c5_roundtrip_witness :
    ∃ r, (detect_duplicate (add_document_to_index initState "d1" "hello world")
      "hello world" (17 / 20 : ℝ)).1 = Except.ok r ∧ r.similarity_score = 1 ∧
      r.is_duplicate ∧ r.similar_document_id = some "d1" :=
  c5_roundtrip "d1" "hello world" (by decide)

/-! ### Summary-shape lemmas (C3) -/

theorem length_filter_contains (l S : List String) (hl : l.Nodup) (hS : S.Nodup)
    (hsub : ∀ x ∈ S, x ∈ l) :
    (l.filter (fun s => S.contains s)).length = S.length := by
  have hfn : (l.filter (fun s => S.contains s)).Nodup := hl.filter _
  have hset : (l.filter (fun s => S.contains s)).toFinset = S.toFinset := by
    ext x
    simp only [List.mem_toFinset, List.mem_filter]
    constructor
    · rintro ⟨_, hx⟩
      simpa using hx
    · intro hx
      exact ⟨hsub x hx, by simpa using hx⟩
  have h1 := List.toFinset_card_of_nodup hfn
  have h2 := List.toFinset_card_of_nodup hS
  rw [← h1, ← h2, hset]

/-- C3 amended.  When the stripped sentence segmentation has `n ≥ 3`
pairwise distinct sentences and `max(1, int(n * frac))` does not exceed `n`
(equivalently, the ratio is at most one), the summary consists of exactly
`max(1, int(n * frac))` sentences — `int()` truncation, not the ceiling —
taken in original document order (a sublist of the segmentation) and joined
by single spaces; this covers both the ranking path and the
ranking-failure path. -/
theorem c3_summary_shape (segment : String → List String)
    (scoresOpt : Option (Nat → F)) (text : String) (frac : F)
    (hn : 3 ≤ ((segment text).map pyStrip).length)
    (hnodup : ((segment text).map pyStrip).Nodup)
    (hk : (max 1 ((F.ofNat ((segment text).map pyStrip).length).mul
      frac).truncInt).toNat ≤ ((segment text).map pyStrip).length) :
    ∃ chosen : List String,
      chosen.Sublist ((segment text).map pyStrip) ∧
      chosen.length = (max 1 ((F.ofNat ((segment text).map pyStrip).length).mul
        frac).truncInt).toNat ∧
      summarize_report segment scoresOpt text frac =
        String.intercalate " " chosen := by
  cases scoresOpt with
  | none =>
    simp only [summarize_report]
    rw [if_neg (by omega)]
    refine ⟨((segment text).map pyStrip).take _, List.take_sublist _ _, ?_, rfl⟩
    rw [List.length_take]
    exact Nat.min_eq_left hk
  | some f =>
    simp only [summarize_report]
    rw [if_neg (by omega)]
    set sents := (segment text).map pyStrip with hsents
    set k := (max 1 ((F.ofNat sents.length).mul frac).truncInt).toNat with hkdef
    set pairs := ((List.range sents.length).zip sents).map
      (fun p => (f p.1, p.2)) with hpairs
    set ranked := stableSort rankGe pairs with hranked
    set S := (ranked.take k).map (fun p => p.2) with hSdef
    refine ⟨sents.filter (fun s => S.contains s), List.filter_sublist _, ?_, rfl⟩
    have hperm : List.Perm ranked pairs := stableSort_perm _ _
    have hmap : pairs.map Prod.snd = sents := by
      rw [hpairs, List.map_map]
      have hc : (Prod.snd ∘ fun p : Nat × String => (f p.1, p.2)) =
          Prod.snd := rfl
      rw [hc]
      exact List.map_snd_zip _ _ (by simp)
    have hpermmap : List.Perm (ranked.map Prod.snd) sents := by
      rw [← hmap]
      exact hperm.map Prod.snd
    have hnd : (ranked.map Prod.snd).Nodup := hpermmap.nodup_iff.mpr hnodup
    have hSpre : S.Sublist (ranked.map Prod.snd) := by
      rw [hSdef]
      exact (List.take_sublist k ranked).map (fun p => p.2)
    have hSnd : S.Nodup := hnd.sublist hSpre
    have hSsub : ∀ x ∈ S, x ∈ sents :=
      fun x hx => hpermmap.mem_iff.mp (hSpre.subset hx)
    have hrl : ranked.length = sents.length := by
      rw [hranked, (stableSort_perm rankGe pairs).length_eq, hpairs,
        List.length_map, List.length_zip]
      simp
    have hSlen : S.length = k := by
      rw [hSdef, List.length_map, List.length_take, hrl]
      exact Nat.min_eq_left hk
    rw [length_filter_contains sents S hnodup hSnd hSsub, hSlen]

/-- Witness for C3 on a concrete five-sentence segmentation with ratio
`1/2` and a concrete score function (the selected count is
`max(1, int(5 * 0.5)) = 2`). -/
theorem c3_summary_shape_witness :
    ∃ chosen : List String,
      chosen.Sublist (((fun _ : String => ["One alpha.", "Two beta.",
        "Three gamma.", "Four delta.", "Five epsilon."]) "doc").map pyStrip) ∧
      chosen.length = (max 1 ((F.ofNat (((fun _ : String => ["One alpha.",
        "Two beta.", "Three gamma.", "Four delta.", "Five epsilon."])
        "doc").map pyStrip).length).mul (⟨1, 2⟩ : F)).truncInt).toNat ∧
      summarize_report (fun _ : String => ["One alpha.", "Two beta.",
        "Three gamma.", "Four delta.", "Five epsilon."])
        (some (fun i => F.ofNat i)) "doc" ⟨1, 2⟩ =
        String.intercalate " " chosen :=
  c3_summary_shape (fun _ : String => ["One alpha.", "Two beta.",
    "Three gamma.", "Four delta.", "Five epsilon."])
    (some (fun i => F.ofNat i)) "doc" ⟨1, 2⟩ (by decide) (by decide) (by decide)

end Phrm
